import Mathlib

/-!
Verification development for `webgnome_api/views/socket_step.py` of the
MECPwebGnomeAPI repository: a shallow embedding of the asynchronous stepping
engine (run requests, the step loop, ensemble aggregation of uncertainty
worker results, the export cleanup callback and the rewind view), together
with theorems about its behaviour.

Machine integers do not occur (Python integers are unbounded); times are
modelled as abstract integer instants supplied by the environment.
-/

set_option autoImplicit false

/-- Keys of a Python dict as used in `socket_step.py`: string keys, plus the
integer worker indexes inserted by `full_output[idx] = ...` (line 296). -/
inductive PyKey where
  | str (s : String)
  | idx (n : Nat)
  deriving Repr, DecidableEq

/-- Values stored in the step-output dict: `None`, numbers, and nested dicts.
Numeric values are modelled as integers (Python numbers are exact here; the
claims never depend on fractional values). -/
inductive PyVal where
  | none
  | int (n : Int)
  | dict (entries : List (PyKey × PyVal))

/-- Python dict lookup (`d[k]` when present / `k in d`): association list with
the first binding of a key authoritative. -/
def dictGet : List (PyKey × PyVal) → PyKey → Option PyVal
  | [], _ => Option.none
  | (k', v) :: rest, k => if k' = k then some v else dictGet rest k

/-- Python dict assignment `d[k] = v`: replaces the binding in place when the
key is present, otherwise appends it (insertion order preserved). -/
def dictSet : List (PyKey × PyVal) → PyKey → PyVal → List (PyKey × PyVal)
  | [], k, v => [(k, v)]
  | (k', v') :: rest, k, v =>
      if k' = k then (k, v) :: rest else (k', v') :: dictSet rest k v

/-- Generic string-keyed association-list lookup (used for blocks, the
aggregate dict, sessions and the greenlet registry). -/
def alistGet {α : Type} : List (String × α) → String → Option α
  | [], _ => Option.none
  | (k', v) :: rest, k => if k' = k then some v else alistGet rest k

/-- Generic string-keyed dict assignment: replace in place or append. -/
def alistSet {α : Type} : List (String × α) → String → α → List (String × α)
  | [], k, v => [(k, v)]
  | (k', v') :: rest, k, v =>
      if k' = k then (k, v) :: rest else (k', v') :: alistSet rest k v

/-- One result fragment from the uncertainty workers (`get_uncertain_steps`,
line 263/387-392).  A fragment is either a worker output record - modelled by
its `WeatheringOutput` block, a dict of named numeric fields - or an encoded
failure: in the source, a tuple of length >= 3 whose second element is an
exception and whose third is the original traceback (lines 278-281).  We keep
the exception message and the original context. -/
inductive WorkerResult where
  | ok (block : List (String × Int))
  | failure (msg : String) (ctx : String)

/-- Exceptions that can escape the aggregation region of the step body. -/
inductive StepErr where
  | workerFailure (msg : String) (ctx : String)
  | keyError (k : String)
  deriving Repr, DecidableEq

/-- The message reported for an exception (what `json_exception` extracts). -/
def StepErr.msg : StepErr → String
  | StepErr.workerFailure m _ => m
  | StepErr.keyError k => "KeyError: " ++ k

/-- The first failure fragment, in worker-index order, if any. -/
def firstFailure : List WorkerResult → Option (String × String)
  | [] => Option.none
  | WorkerResult.ok _ :: rest => firstFailure rest
  | WorkerResult.failure m c :: _ => some (m, c)

/-- `aggregate[k].append(v)` on a `defaultdict(list)` (line 284): append `v`
to the list at `k`, creating `[v]` when `k` is new; first-seen key order. -/
def appendAgg : List (String × List Int) → String → Int → List (String × List Int)
  | [], k, v => [(k, [v])]
  | (k', vs) :: rest, k, v =>
      if k' = k then (k', vs ++ [v]) :: rest
      else (k', vs) :: appendAgg rest k v

/-- The inner loop of line 283-284: fold one fragment block into the
aggregate dict. -/
def foldBlock (agg : List (String × List Int)) (b : List (String × Int)) :
    List (String × List Int) :=
  b.foldl (fun a kv => appendAgg a kv.1 kv.2) agg

/-- One iteration of the first `for idx, step_output in enumerate(steps)`
loop (lines 273-284): raise a failure fragment with its original context,
otherwise collect the fragment's field values into the aggregate dict. -/
def aggStep (agg : List (String × List Int)) :
    WorkerResult → Except StepErr (List (String × List Int))
  | WorkerResult.failure m c => Except.error (StepErr.workerFailure m c)
  | WorkerResult.ok b => Except.ok (foldBlock agg b)

/-- The first `for idx, step_output in enumerate(steps)` loop (lines 273-284):
raise the first failure fragment with its original context, otherwise collect
every field value of every fragment into the aggregate dict. -/
def buildAggregate (steps : List WorkerResult) :
    Except StepErr (List (String × List Int)) :=
  steps.foldlM aggStep []

/-- Python `min` over a non-empty list of numbers (line 287); the `[]` case is
unreachable because every aggregate entry is created non-empty. -/
def pyMin : List Int → Int
  | [] => 0
  | v :: rest => rest.foldl min v

/-- Python `max` over a non-empty list of numbers (line 288). -/
def pyMax : List Int → Int
  | [] => 0
  | v :: rest => rest.foldl max v

/-- Lines 286-287: `low[k] = min(v)` for every aggregate entry. -/
def lowOf (agg : List (String × List Int)) : List (String × Int) :=
  agg.map fun kv => (kv.1, pyMin kv.2)

/-- Lines 286-288: `high[k] = max(v)` for every aggregate entry. -/
def highOf (agg : List (String × List Int)) : List (String × Int) :=
  agg.map fun kv => (kv.1, pyMax kv.2)

/-- A fragment block viewed as a Python dict value. -/
def blockVal (b : List (String × Int)) : PyVal :=
  PyVal.dict (b.map fun kv => (PyKey.str kv.1, PyVal.int kv.2))

/-- `nominal['time_stamp']` (lines 290, 303): subscripting a non-dict or a
missing key raises. -/
def getTimeStamp : PyVal → Except StepErr PyVal
  | PyVal.dict es =>
      match dictGet es (PyKey.str "time_stamp") with
      | some v => Except.ok v
      | Option.none => Except.error (StepErr.keyError "time_stamp")
  | _ => Except.error (StepErr.keyError "time_stamp")

/-- `step_output['WeatheringOutput']` for a worker fragment, as stored by
the second loop (line 296).  A failure fragment cannot reach that loop (the
first loop has already raised), so its value is arbitrary (`None`). -/
def fragVal : WorkerResult → PyVal
  | WorkerResult.ok b => blockVal b
  | WorkerResult.failure _ _ => PyVal.none

/-- Lines 290-296: the combined block `full_output` - the four named entries,
then `full_output[idx] = step_output['WeatheringOutput']` for each worker
index via dict assignment. -/
def fullOutputWith (ts nominal : PyVal) (lo hi : List (String × Int))
    (frags : List WorkerResult) : List (PyKey × PyVal) :=
  frags.enum.foldl
    (fun fo p => dictSet fo (PyKey.idx p.1) (fragVal p.2))
    [(PyKey.str "time_stamp", ts), (PyKey.str "nominal", nominal),
     (PyKey.str "low", blockVal lo), (PyKey.str "high", blockVal hi)]

/-- Python truthiness of `steps` (line 266): `None` and the empty list are
falsy, a non-empty list of fragments is truthy. -/
def stepsTruthy : Option (List WorkerResult) → Bool
  | Option.none => false
  | some l => !l.isEmpty

/-- Lines 258-310 of `execute_async_model`, the per-step output processing:
given the step output record, the worker fragments (`None` when no uncertain
models exist), and the three time instants read at lines 258, 262 and 264
(`begin`, `begin_uncertain`, `end` - all three are assigned on every
iteration, before the branch), produce the record that will be emitted, or
the exception that escapes the `try` block. -/
def processStepOutput (output : List (PyKey × PyVal))
    (steps : Option (List WorkerResult)) (tBegin tBeginUnc tEnd : Int) :
    Except StepErr (List (PyKey × PyVal)) :=
  if stepsTruthy steps && (dictGet output (PyKey.str "WeatheringOutput")).isSome then
    let nominal := (dictGet output (PyKey.str "WeatheringOutput")).getD PyVal.none
    let frags := steps.getD []
    match buildAggregate frags with
    | Except.error e => Except.error e
    | Except.ok agg =>
      match getTimeStamp nominal with
      | Except.error e => Except.error e
      | Except.ok ts =>
        let fo := fullOutputWith ts nominal (lowOf agg) (highOf agg) frags
        Except.ok
          (dictSet
            (dictSet
              (dictSet output (PyKey.str "WeatheringOutput") (PyVal.dict fo))
              (PyKey.str "uncertain_response_time") (PyVal.int (tEnd - tBeginUnc)))
            (PyKey.str "total_response_time") (PyVal.int (tEnd - tBegin)))
  else if (dictGet output (PyKey.str "WeatheringOutput")).isSome then
    let nominal := (dictGet output (PyKey.str "WeatheringOutput")).getD PyVal.none
    match getTimeStamp nominal with
    | Except.error e => Except.error e
    | Except.ok ts =>
      let fo := [(PyKey.str "time_stamp", ts), (PyKey.str "nominal", nominal),
                 (PyKey.str "low", PyVal.none), (PyKey.str "high", PyVal.none)]
      Except.ok
        (dictSet
          (dictSet
            (dictSet output (PyKey.str "WeatheringOutput") (PyVal.dict fo))
            (PyKey.str "uncertain_response_time") (PyVal.int (tEnd - tBeginUnc)))
          (PyKey.str "total_response_time") (PyVal.int (tEnd - tBegin)))
  else
    Except.ok output

/-- The socket events emitted by the stepping engine (wire contract). -/
inductive SockEvent where
  | prepared
  | timeout (msg : String)
  | stepOutput (out : List (PyKey × PyVal))
  | stepCounter (n : Int)
  | killed (msg : String)
  | complete (msg : String)
  | runtimeError (msg : String)

/-- Whether an event is a `step` event (full record or heartbeat counter). -/
def isStepEv : SockEvent → Bool
  | SockEvent.stepOutput _ => true
  | SockEvent.stepCounter _ => true
  | _ => false

/-- Whether an event is a `timeout` event. -/
def isTimeoutEv : SockEvent → Bool
  | SockEvent.timeout _ => true
  | _ => false

/-- Modelled from the spec: the per-session Gate (`sock_session['lock']`) is
defined in `webgnome_api/socket/sockserv.py`, which is not among the sources.
Per the spec (section 4.1) it is a waitable binary signal with
`set`/`clear`/`wait(timeout) -> bool`, `wait` returning whether it was set. -/
structure Gate where
  isSet : Bool
  deriving Repr, DecidableEq

/-- Python truthiness of the Gate object itself (a gevent `Event`): the class
defines no `__bool__`, so the default object truthiness applies - the object
is always truthy, regardless of whether the signal is set. -/
def gateObjTruthy : Gate → Bool := fun _ => true

/-- Modelled from the spec: `on_model_kill` lives in
`webgnome_api/socket/sockserv.py`, which is not among the sources.  Per the
spec (section 4.2, `kill`) it requests cooperative cancellation of the
session's active task without blocking; the task observes the cancellation -
delivered as `GreenletExit` - at its next suspension point.  We model a kill
request as the pending-cancel flag it leaves behind. -/
def onModelKill : Bool := true

/-- Lines 342-352 of `execute_async_model`, the end-of-iteration wait
(`AwaitingNextStep`).  The code calls `sock_session['lock'].wait(6000)` but
discards the result, then assigns the Gate object itself to `unlocked`
(`unlocked = sock_session['lock']`), so `if not unlocked` tests the
truthiness of the Event object, not of the wait outcome.  Returns the events
emitted and whether self-cancellation was requested.  `setDuringWait` is the
discarded outcome of the wait. -/
def awaitNextStep (g : Gate) (setDuringWait : Bool) : List SockEvent × Bool :=
  let _waitResult := setDuringWait
  let unlocked := gateObjTruthy g
  if unlocked = false then
    ([SockEvent.timeout "Model run timed out after 6000 sec"], onModelKill)
  else
    ([], false)

/-- The per-session auxiliary socket-session state.  `num_sent` is the step
counter; `other` are the remaining key/value entries, untouched by the loop.
The `lock` entry (the Gate) is shared by reference between the live session
and any clone, so it is modelled separately. -/
structure SockSession where
  num_sent : Int
  other : List (String × Int)
  deriving Repr, DecidableEq

/-- The environment of one `execute_async_model` run: the model being
stepped, the scripted worker results, the scripted time instants and Gate
behaviour, and the session snapshot taken at task entry. -/
structure ModelCfg where
  /-- Number of successful `active_model.step()` calls before the model
  raises `StopIteration`. -/
  totalSteps : Nat
  /-- `active_model.has_weathering_uncertainty` (line 251). -/
  has_weathering_uncertainty : Bool
  /-- The record returned by the k-th `active_model.step()` call. -/
  stepOutputs : Nat → List (PyKey × PyVal)
  /-- The fragments returned by `get_uncertain_steps` at the k-th step, when
  uncertain models exist. -/
  workerResults : Nat → List WorkerResult
  /-- The instants read at lines 258, 262, 264 during the k-th step. -/
  stepTimes : Nat → Int × Int × Int
  /-- Whether the Gate is set within the 16-unit startup wait (line 236). -/
  startGateSet : Bool
  /-- Whether the Gate becomes set during the k-th long wait (line 345); the
  code discards this outcome. -/
  midGateSet : Nat → Bool
  /-- `socket_namespace.is_async` (line 337). -/
  is_async : Bool
  /-- The `send_output` argument (default `True`). -/
  send_output : Bool
  /-- The clone of the socket session taken at task entry (line 231). -/
  entrySession : SockSession

/-- How the task terminates: clean exhaustion, `GreenletExit`, or a stepping
failure whose exception reaches the termination callback. -/
inductive TaskExit where
  | completed
  | killedExit
  | failed (e : StepErr)
  deriving Repr, DecidableEq

/-- The observable outcome of one task: the events emitted in order, the
terminal state, the session written back by `save_session` in the `finally`
block, the number of successful model steps, and the number of
`on_model_kill` calls made. -/
structure RunResult where
  events : List SockEvent
  exit : TaskExit
  stored : SockSession
  stepsTaken : Nat
  killRequests : Nat

/-- The `while True` loop of `execute_async_model` (lines 244-354), from the
iteration with index `stepIdx` on (`active_model.current_time_step == -1`
exactly when `stepIdx = 0`).  `uncertainSet` records whether uncertain models
exist; `pendingKill` records a cancellation requested at or before the last
suspension point, delivered as `GreenletExit` when the task next suspends
(the per-spec suspension points are the Gate waits, the model-step I/O at the
top of the iteration, and the end-of-iteration `gevent.sleep`).  The returned
events are those emitted from this point on; the `finally` block saves the
entry clone `copy` (with its advanced `num_sent`) on every exit path, and
`complete` is emitted only after a clean exit from the loop. -/
def runLoop (cfg : ModelCfg) (stepIdx : Nat) (uncertainSet pendingKill : Bool)
    (copy : SockSession) : RunResult :=
  if pendingKill then
    -- GreenletExit delivered at the suspension point: lines 355-358, then the
    -- finally block, then the exception is re-raised (no complete event).
    { events := [SockEvent.killed "Model run terminated early"],
      exit := TaskExit.killedExit, stored := copy,
      stepsTaken := 0, killRequests := 0 }
  else
    -- Lines 247-256: on the first iteration, drop any prior uncertain models
    -- and establish them if the model has weathering uncertainty.
    let uSet := if stepIdx = 0 then cfg.has_weathering_uncertainty else uncertainSet
    if _h : stepIdx < cfg.totalSteps then
      let output := cfg.stepOutputs stepIdx
      let wsteps := if uSet then some (cfg.workerResults stepIdx) else Option.none
      let t := cfg.stepTimes stepIdx
      match processStepOutput output wsteps t.1 t.2.1 t.2.2 with
      | Except.error e =>
        -- Lines 316-328 re-raise; lines 360-376 log, emit runtimeError with
        -- the exception message, and re-raise to the termination callback.
        { events := [SockEvent.runtimeError (StepErr.msg e)],
          exit := TaskExit.failed e, stored := copy,
          stepsTaken := 1, killRequests := 0 }
      | Except.ok out =>
        -- Line 330: sock_session_copy['num_sent'] += 1.
        let copy' : SockSession := { copy with num_sent := copy.num_sent + 1 }
        -- Lines 332-335: emit the full record, or only the counter.
        let ev := if !out.isEmpty && cfg.send_output then SockEvent.stepOutput out
                  else SockEvent.stepCounter copy'.num_sent
        -- Lines 337-340: when not is_async the Gate is cleared; nothing in
        -- the loop reads the Gate state afterwards (the next wait's outcome
        -- is discarded), so the clear has no further observable effect here.
        -- Lines 342-352: the long wait.
        let wres := awaitNextStep { isSet := cfg.midGateSet stepIdx } (cfg.midGateSet stepIdx)
        -- Line 354: gevent.sleep - a suspension point; a kill requested by
        -- the wait above would be delivered before the next step.
        let r := runLoop cfg (stepIdx + 1) uSet wres.2 copy'
        { events := ev :: (wres.1 ++ r.events),
          exit := r.exit, stored := r.stored,
          stepsTaken := 1 + r.stepsTaken,
          killRequests := (if wres.2 then 1 else 0) + r.killRequests }
    else
      -- Lines 311-315: StopIteration - drop the uncertain models and break;
      -- the finally block runs, then line 385 emits complete.
      { events := [SockEvent.complete "Model run completed"],
        exit := TaskExit.completed, stored := copy,
        stepsTaken := 0, killRequests := 0 }
termination_by cfg.totalSteps - stepIdx
decreasing_by omega

/-- `execute_async_model` (lines 217-385): take the entry clone of the
session (`get_session`, line 231 - modelled from the spec and the source
comment as a snapshot whose later `save_session` write-back replaces the
stored session), emit `prepared`, wait on the Gate for the 16-unit startup
window, on timeout emit `timeout` and request self-cancellation via
`on_model_kill`, then enter the stepping loop. -/
def execute_async_model (cfg : ModelCfg) : RunResult :=
  let copy := cfg.entrySession
  if cfg.startGateSet then
    let r := runLoop cfg 0 false false copy
    { r with events := SockEvent.prepared :: r.events }
  else
    let r := runLoop cfg 0 false onModelKill copy
    { events := SockEvent.prepared ::
        SockEvent.timeout "Model not started, timed out after 16 sec" :: r.events,
      exit := r.exit, stored := r.stored, stepsTaken := r.stepsTaken,
      killRequests := 1 + r.killRequests }

/-- The liveness state of a registered greenlet.  gevent defines `__bool__`
on `Greenlet` as "started and not yet dead", so a finished (completed,
failed, or killed) greenlet is falsy while a live one is truthy. -/
inductive GlState where
  | running
  | dead
  deriving Repr, DecidableEq

/-- Python truthiness of a gevent greenlet object. -/
def glTruthy : GlState → Bool
  | GlState.running => true
  | GlState.dead => false

/-- Truthiness of `ns.active_greenlets.get(sid)` (lines 164, 203): falsy when
no entry exists for `sid`, otherwise the truthiness of the stored greenlet. -/
def slotTruthy (glmap : List (String × GlState)) (sid : String) : Bool :=
  match alistGet glmap sid with
  | Option.none => false
  | some g => glTruthy g

/-- The observable effect of one run request on the registry: the updated
`active_greenlets` mapping, the fact that `sock_session['num_sent']` was set
to 0, and whether a new task was spawned. -/
structure SpawnResult where
  active_greenlets : List (String × GlState)
  num_sent_zeroed : Bool
  spawned : Bool
  deriving Repr, DecidableEq

/-- `run_model` (lines 180-214), the part inside `with ns.session(sid)`:
set `num_sent` to 0, then spawn a new greenlet and register it only when an
active model exists and `not ns.active_greenlets.get(sid)`; otherwise return
without spawning. -/
def run_model (glmap : List (String × GlState)) (sid : String)
    (activeModel : Bool) : SpawnResult :=
  if activeModel && !(slotTruthy glmap sid) then
    { active_greenlets := alistSet glmap sid GlState.running,
      num_sent_zeroed := true, spawned := true }
  else
    { active_greenlets := glmap, num_sent_zeroed := true, spawned := false }

/-- `run_export_model` (lines 160-176), the same registry logic inside
`with ns.session(sid)` (the spawned greenlet additionally gets the export
cleanup linked to it); identical spawn condition and no-op behaviour. -/
def run_export_model (glmap : List (String × GlState)) (sid : String)
    (activeModel : Bool) : SpawnResult :=
  if activeModel && !(slotTruthy glmap sid) then
    { active_greenlets := alistSet glmap sid GlState.running,
      num_sent_zeroed := true, spawned := true }
  else
    { active_greenlets := glmap, num_sent_zeroed := true, spawned := false }

/-- A filesystem path, split as directory part and base filename
(`os.path.basename` returns `base`; `os.path.join` builds one). -/
structure FPath where
  dir : String
  base : String
  deriving Repr, DecidableEq

/-- `obj_fn + '.zip'` (lines 139, 145): append `.zip` to the filename. -/
def addZipExt (p : FPath) : FPath :=
  { p with base := p.base ++ ".zip" }

/-- A temporary outputter as the cleanup sees it: its object id (used by
`active_model.outputters.remove(m.id)`) and its `filename`. -/
structure Outputter where
  id : Nat
  filename : FPath
  deriving Repr, DecidableEq

/-- The slice of the model state the cleanup touches: the outputter
collection and whether `rewind()` has been called. -/
structure ModelState where
  outputters : List Outputter
  rewound : Bool
  deriving Repr, DecidableEq

/-- How the export greenlet terminated, as the linked callback observes it:
`grn.exception` is set on failure; a killed greenlet exits with value
`GreenletExit` (line 126 tests `grn.exception or isinstance(grn.value,
GreenletExit)`). -/
inductive GrnOutcome where
  | completed
  | failed (e : String)
  | killed
  deriving Repr, DecidableEq

/-- The test at line 126. -/
def failedOrKilled : GrnOutcome → Bool
  | GrnOutcome.completed => false
  | GrnOutcome.failed _ => true
  | GrnOutcome.killed => true

/-- The export events the cleanup can emit. -/
inductive ExportEvent where
  | export_failed
  | export_finished (artifact : String)
  deriving Repr, DecidableEq

/-- The zip compression method; the cleanup always uses
`zipfile.ZIP_DEFLATED` (line 135). -/
inductive Compression where
  | deflated
  | stored
  deriving Repr, DecidableEq

/-- The artifact placed into the session directory by a clean export run. -/
inductive Artifact where
  | zipArchive (path : FPath) (method : Compression) (entries : List (FPath × String))
  | movedFile (src : FPath) (dest : FPath)
  deriving Repr, DecidableEq

/-- The result of one cleanup invocation: the model state after the side
effects that happened, the events emitted, the artifact produced, and the
exception (if any) that the callback re-raised after those side effects. -/
structure CleanupResult where
  model : ModelState
  events : List ExportEvent
  artifact : Option Artifact
  error : Option String
  deriving Repr, DecidableEq

/-- `collection.remove(ident)` on the model's outputter collection: removes
the first outputter with the given id, raising when none matches. -/
def removeById : List Outputter → Nat → Except String (List Outputter)
  | [], _ => Except.error "KeyError: id not in collection"
  | o :: rest, i =>
      if o.id = i then Except.ok rest
      else
        match removeById rest i with
        | Except.error e => Except.error e
        | Except.ok rest' => Except.ok (o :: rest')

/-- The removal loop at lines 118-121: remove each temporary outputter in
order; on a failure the removals already made persist and the exception
propagates. -/
def detachAllSt : List Outputter → List Outputter → List Outputter × Option String
  | [], outs => (outs, Option.none)
  | m :: rest, outs =>
      match removeById outs m.id with
      | Except.error e => (outs, some e)
      | Except.ok outs' => detachAllSt rest outs'

/-- Lines 138-139 and 144-145: the expected output file, falling back to the
`.zip`-suffixed path when the plain file does not exist (`fs` is the set of
existing files). -/
def resolveOutputFile (fs : List FPath) (p : FPath) : FPath :=
  if fs.contains p then p else addZipExt p

/-- The body of `get_export_cleanup` (lines 114-158), run by the linked
termination callback exactly once when the export greenlet dies: detach the
temporary outputters, rewind the model, then either report `export_failed`
(failure or `GreenletExit`) or assemble and announce the artifact.  `fs`
lists the files existing in the scratch directory. -/
def cleanup (temps : List Outputter) (model : ModelState)
    (outcome : GrnOutcome) (fs : List FPath)
    (sessionPath : String) (modelFilename : String) : CleanupResult :=
  match detachAllSt temps model.outputters with
  | (outs, some e) =>
      -- The exception escapes before rewind() is reached (line 122).
      { model := { outputters := outs, rewound := false },
        events := [], artifact := Option.none, error := some e }
  | (outs, Option.none) =>
      let model' : ModelState := { outputters := outs, rewound := true }
      if failedOrKilled outcome then
        -- Lines 126-129: not a successful export run even if files exist.
        { model := model', events := [ExportEvent.export_failed],
          artifact := Option.none, error := Option.none }
      else if temps.length > 1 then
        -- Lines 131-140: zip every output into <model_name>_output.zip.
        let endFilename := modelFilename ++ "_output.zip"
        let entries := temps.map fun m =>
          let fn := resolveOutputFile fs m.filename
          (fn, fn.base)
        { model := model',
          events := [ExportEvent.export_finished endFilename],
          artifact := some (Artifact.zipArchive
            { dir := sessionPath, base := endFilename } Compression.deflated entries),
          error := Option.none }
      else
        -- Lines 141-150: a single outputter - move its file verbatim.
        match temps with
        | [] =>
            -- temporary_outputters[0] on an empty list raises IndexError.
            { model := model', events := [], artifact := Option.none,
              error := some "IndexError: list index out of range" }
        | m :: _ =>
            let fn := resolveOutputFile fs m.filename
            let endFilename := fn.base
            { model := model',
              events := [ExportEvent.export_finished endFilename],
              artifact := some (Artifact.movedFile fn
                { dir := sessionPath, base := endFilename }),
              error := Option.none }

/-- The actions `get_rewind` performs, in order. -/
inductive RAction where
  | acquireLock
  | killTask (block : Bool)
  | resetNumSent
  | rewindModel
  | releaseLock
  deriving Repr, DecidableEq

/-- The HTTP outcome of `get_rewind`. -/
inductive RResp where
  | ok
  | unprocessableEntity
  | preconditionFailed
  deriving Repr, DecidableEq

/-- The observable outcome of one rewind request: the ordered action trace
and the response. -/
structure RewindResult where
  actions : List RAction
  response : RResp
  deriving Repr, DecidableEq

/-- `get_rewind` (lines 394-423): with an active model, acquire the session
lock; if a greenlet is registered and truthy for the session's socket id,
kill it without blocking and reset `num_sent` to 0; rewind the model
(`rewindFails` scripts whether `rewind()` raises); any exception becomes an
unprocessable-entity response; the lock is released in the `finally` block on
every path.  Without an active model, respond precondition-failed. -/
def get_rewind (activeModel nsPresent sidResolved glActive rewindFails : Bool) :
    RewindResult :=
  if activeModel then
    let killActs :=
      if nsPresent && sidResolved && glActive then
        [RAction.killTask false, RAction.resetNumSent]
      else []
    { actions := RAction.acquireLock :: killActs ++
        [RAction.rewindModel, RAction.releaseLock],
      response := if rewindFails then RResp.unprocessableEntity else RResp.ok }
  else
    { actions := [], response := RResp.preconditionFailed }

/-! ## Generic dictionary lemmas -/

theorem dictGet_dictSet_same (l : List (PyKey × PyVal)) (k : PyKey) (v : PyVal) :
    dictGet (dictSet l k v) k = some v := by
  induction l with
  | nil => simp [dictSet, dictGet]
  | cons kv rest ih =>
    obtain ⟨k', v'⟩ := kv
    by_cases h : k' = k
    · simp [dictSet, dictGet, h]
    · simp [dictSet, dictGet, h, ih]

theorem dictGet_dictSet_other (l : List (PyKey × PyVal)) (k k' : PyKey) (v : PyVal)
    (h : k' ≠ k) : dictGet (dictSet l k v) k' = dictGet l k' := by
  have hk : k ≠ k' := fun hh => h hh.symm
  induction l with
  | nil => simp [dictSet, dictGet, hk]
  | cons kv rest ih =>
    obtain ⟨k0, v0⟩ := kv
    by_cases h0 : k0 = k
    · subst h0
      simp [dictSet, dictGet, hk]
    · simp [dictSet, dictGet, h0, ih]

theorem dictGet_append (l1 l2 : List (PyKey × PyVal)) (k : PyKey) :
    dictGet (l1 ++ l2) k =
      match dictGet l1 k with
      | some v => some v
      | Option.none => dictGet l2 k := by
  induction l1 with
  | nil => simp [dictGet]
  | cons kv rest ih =>
    obtain ⟨k', v'⟩ := kv
    by_cases h : k' = k
    · simp [dictGet, h]
    · simp [dictGet, h, ih]

theorem dictSet_not_mem (l : List (PyKey × PyVal)) (k : PyKey) (v : PyVal)
    (h : dictGet l k = Option.none) : dictSet l k v = l ++ [(k, v)] := by
  induction l with
  | nil => simp [dictSet]
  | cons kv rest ih =>
    obtain ⟨k', v'⟩ := kv
    by_cases h0 : k' = k
    · rw [dictGet, if_pos h0] at h; exact absurd h (by simp)
    · rw [dictGet, if_neg h0] at h
      simp [dictSet, h0, ih h]

/-! ## Claim C1: duplicate run requests -/

/-- Claim C1, counterexample: a task is still registered for the socket id
(`active_greenlets` holds a finished greenlet - nothing ever removes
entries), yet `run_model` spawns and registers a new task, because
`not ns.active_greenlets.get(sid)` tests gevent-greenlet truthiness (started
and not dead), not slot emptiness.  This contradicts "if a task is already
registered for that session's socket id, the request returns without
spawning anything". -/
theorem claim_C1_counterexample :
    (alistGet [("s1", GlState.dead)] "s1").isSome = true ∧
    (run_model [("s1", GlState.dead)] "s1" true).spawned = true ∧
    (run_model [("s1", GlState.dead)] "s1" true).active_greenlets
      = [("s1", GlState.running)] := by
  refine ⟨by decide, by decide, by decide⟩

/-- Claim C1, amended: a run request (`run_model` or `run_export_model`)
spawns a new task exactly when an active model exists and no registered
greenlet for the socket id is live (started and not finished); while a live
task is registered the request is a no-op - it spawns nothing, leaves the
registry unchanged, and the existing task is unaffected (no queueing).  A
registered but already-finished task does not block a new spawn; it is
replaced in the registry. -/
theorem claim_C1 (glmap : List (String × GlState)) (sid : String)
    (activeModel : Bool) :
    ((run_model glmap sid activeModel).spawned
        = (activeModel && !(slotTruthy glmap sid))) ∧
    ((run_export_model glmap sid activeModel).spawned
        = (activeModel && !(slotTruthy glmap sid))) ∧
    (slotTruthy glmap sid = true →
      run_model glmap sid activeModel
          = { active_greenlets := glmap, num_sent_zeroed := true,
              spawned := false } ∧
      run_export_model glmap sid activeModel
          = { active_greenlets := glmap, num_sent_zeroed := true,
              spawned := false }) ∧
    (activeModel = true → slotTruthy glmap sid = false →
      run_model glmap sid activeModel
          = { active_greenlets := alistSet glmap sid GlState.running,
              num_sent_zeroed := true, spawned := true }) := by
  refine ⟨?_, ?_, ?_, ?_⟩
  · by_cases h : (activeModel && !(slotTruthy glmap sid)) = true <;>
      simp [run_model, h]
  · by_cases h : (activeModel && !(slotTruthy glmap sid)) = true <;>
      simp [run_export_model, h]
  · intro h
    constructor <;> simp [run_model, run_export_model, h]
  · intro ha hs
    simp [run_model, ha, hs]

/-- Claim C1, witness: with a live task registered for `"s1"`, a second run
request spawns nothing and leaves the registry unchanged. -/
theorem claim_C1_witness :
    (run_model [("s1", GlState.running)] "s1" true).spawned = false ∧
    (run_model [("s1", GlState.running)] "s1" true).active_greenlets
      = [("s1", GlState.running)] := by
  have h := (claim_C1 [("s1", GlState.running)] "s1" true).2.2.1 (by decide)
  exact ⟨by rw [h.1], by rw [h.1]⟩

/-! ## Claim C6: the mid-run timeout branch -/

/-- Claim C6 (a code bug): at the failing input - the Gate stays unset for
the whole 6000-unit mid-run wait - the `AwaitingNextStep` phase emits no
`timeout` event and requests no self-cancellation, because line 347 assigns
the Gate object itself (always truthy) to `unlocked` instead of the Boolean
result of `wait`, making the timeout branch of lines 348-352 unreachable.
The claim (and the comment at line 342, "kill greenlet after 100 minutes
unless unlocked") says a timed-out wait must emit `timeout` and request
self-cancellation. -/
theorem claim_C6 : awaitNextStep { isSet := false } false = ([], false) := rfl

/-! ## Claim C8: the rewind view -/

/-- Claim C8: on a session with an active model, the rewind view always
releases the session lock last (on failure too); a failing `rewind()`
surfaces as an unprocessable-entity response; and when a task is registered
and live it is killed without blocking and `num_sent` is reset to 0, both
before the model is rewound. -/
theorem claim_C8 (activeModel nsPresent sidResolved glActive rewindFails : Bool)
    (hact : activeModel = true) :
    (get_rewind activeModel nsPresent sidResolved glActive rewindFails).actions.getLast?
        = some RAction.releaseLock ∧
    (rewindFails = true →
      (get_rewind activeModel nsPresent sidResolved glActive rewindFails).response
        = RResp.unprocessableEntity) ∧
    (rewindFails = false →
      (get_rewind activeModel nsPresent sidResolved glActive rewindFails).response
        = RResp.ok) ∧
    ((nsPresent && sidResolved && glActive) = true →
      (get_rewind activeModel nsPresent sidResolved glActive rewindFails).actions
        = [RAction.acquireLock, RAction.killTask false, RAction.resetNumSent,
           RAction.rewindModel, RAction.releaseLock]) := by
  subst hact
  cases nsPresent <;> cases sidResolved <;> cases glActive <;>
    cases rewindFails <;> decide

/-- Claim C8, witness: a concrete rewind request with an active model, a live
registered task, and a failing rewind. -/
theorem claim_C8_witness :
    (get_rewind true true true true true).actions.getLast?
        = some RAction.releaseLock ∧
    (get_rewind true true true true true).response = RResp.unprocessableEntity ∧
    (get_rewind true true true true true).actions
        = [RAction.acquireLock, RAction.killTask false, RAction.resetNumSent,
           RAction.rewindModel, RAction.releaseLock] := by
  have h := claim_C8 true true true true true rfl
  exact ⟨h.1, h.2.1 rfl, h.2.2.2 rfl⟩

/-! ## Claim C9: response-time metrics -/

/-- A step output record containing a `WeatheringOutput` block, used to
exercise the no-workers path. -/
def woExample : List (PyKey × PyVal) :=
  [(PyKey.str "WeatheringOutput", PyVal.dict [(PyKey.str "time_stamp", PyVal.int 0)])]

/-- The record the engine emits for `woExample` when no uncertainty workers
exist and the step instants are 3, 5, 9. -/
def woExampleResult : List (PyKey × PyVal) :=
  [(PyKey.str "WeatheringOutput",
    PyVal.dict [(PyKey.str "time_stamp", PyVal.int 0),
                (PyKey.str "nominal", PyVal.dict [(PyKey.str "time_stamp", PyVal.int 0)]),
                (PyKey.str "low", PyVal.none), (PyKey.str "high", PyVal.none)]),
   (PyKey.str "uncertain_response_time", PyVal.int 4),
   (PyKey.str "total_response_time", PyVal.int 6)]

/-- Claim C9, counterexample: with no uncertainty workers at all
(`steps = None`, falsy) and a `WeatheringOutput` block present, the emitted
record nevertheless carries both response-time metrics - lines 309-310
attach them in the no-workers branch too, since `begin_uncertain` and `end`
are assigned unconditionally at lines 262-264.  This contradicts "when no
uncertainty workers exist, the step record carries no response-time
metrics". -/
theorem claim_C9_counterexample :
    stepsTruthy Option.none = false ∧
    processStepOutput woExample Option.none 3 5 9 = Except.ok woExampleResult ∧
    dictGet woExampleResult (PyKey.str "uncertain_response_time")
        = some (PyVal.int 4) ∧
    dictGet woExampleResult (PyKey.str "total_response_time")
        = some (PyVal.int 6) :=
  ⟨rfl, rfl, rfl, rfl⟩

/-- Claim C9, amended: the response-time metrics (`uncertain_response_time`,
the time spent querying and aggregating the workers, and
`total_response_time`, the total step time including aggregation) are
computed and attached to the emitted record exactly when the record contains
the `WeatheringOutput` block - whether or not uncertainty workers are
present; a record without that block carries no metrics (it is emitted
unchanged). -/
theorem claim_C9 (output : List (PyKey × PyVal)) (steps : Option (List WorkerResult))
    (tBegin tBeginUnc tEnd : Int) (out' : List (PyKey × PyVal))
    (hok : processStepOutput output steps tBegin tBeginUnc tEnd = Except.ok out') :
    ((dictGet output (PyKey.str "WeatheringOutput")).isSome = true →
      dictGet out' (PyKey.str "uncertain_response_time")
          = some (PyVal.int (tEnd - tBeginUnc)) ∧
      dictGet out' (PyKey.str "total_response_time")
          = some (PyVal.int (tEnd - tBegin))) ∧
    ((dictGet output (PyKey.str "WeatheringOutput")).isSome = false →
      out' = output) := by
  unfold processStepOutput at hok
  simp only [] at hok
  split at hok
  next h1 =>
    split at hok
    · simp at hok
    · split at hok
      · simp at hok
      · injection hok with hok
        subst hok
        have h2 : (dictGet output (PyKey.str "WeatheringOutput")).isSome = true :=
          ((Bool.and_eq_true _ _).mp h1).2
        refine ⟨fun _ => ⟨?_, ?_⟩, fun hfalse => by rw [h2] at hfalse; cases hfalse⟩
        · rw [dictGet_dictSet_other _ _ _ _ (by decide), dictGet_dictSet_same]
        · rw [dictGet_dictSet_same]
  next h1 =>
    split at hok
    next h2 =>
      split at hok
      · simp at hok
      · injection hok with hok
        subst hok
        refine ⟨fun _ => ⟨?_, ?_⟩, fun hfalse => by rw [h2] at hfalse; cases hfalse⟩
        · rw [dictGet_dictSet_other _ _ _ _ (by decide), dictGet_dictSet_same]
        · rw [dictGet_dictSet_same]
    next h2 =>
      injection hok with hok
      subst hok
      refine ⟨fun htrue => absurd htrue h2, fun _ => rfl⟩

/-- Claim C9, witness: the amended theorem applied to `woExample` with no
workers - the metrics are attached because the block is present. -/
theorem claim_C9_witness :
    dictGet woExampleResult (PyKey.str "uncertain_response_time")
        = some (PyVal.int 4) ∧
    dictGet woExampleResult (PyKey.str "total_response_time")
        = some (PyVal.int 6) := by
  have h := (claim_C9 woExample Option.none 3 5 9 woExampleResult rfl).1 rfl
  simpa using h

/-! ## Detaching outputters: lemmas for the export cleanup -/

theorem removeById_sublist : ∀ (l : List Outputter) (i : Nat) (l' : List Outputter),
    removeById l i = Except.ok l' → l'.Sublist l := by
  intro l
  induction l with
  | nil => intro i l' h; simp [removeById] at h
  | cons o rest ih =>
    intro i l' h
    unfold removeById at h
    by_cases hid : o.id = i
    · rw [if_pos hid] at h
      injection h with h
      subst h
      exact List.Sublist.cons o (List.Sublist.refl rest)
    · rw [if_neg hid] at h
      rcases hrec : removeById rest i with e | rest'
      · rw [hrec] at h; simp at h
      · rw [hrec] at h
        injection h with h
        subst h
        exact List.Sublist.cons₂ o (ih i rest' hrec)

theorem removeById_id_gone : ∀ (l : List Outputter) (i : Nat) (l' : List Outputter),
    (l.map Outputter.id).Nodup → removeById l i = Except.ok l' →
    ∀ o' ∈ l', o'.id ≠ i := by
  intro l
  induction l with
  | nil => intro i l' _ h; simp [removeById] at h
  | cons o rest ih =>
    intro i l' hnd h
    rw [List.map_cons, List.nodup_cons] at hnd
    obtain ⟨hni, hnd⟩ := hnd
    unfold removeById at h
    by_cases hid : o.id = i
    · rw [if_pos hid] at h
      injection h with h
      subst h
      intro o' ho' he
      exact hni (by rw [hid, ← he]; exact List.mem_map_of_mem Outputter.id ho')
    · rw [if_neg hid] at h
      rcases hrec : removeById rest i with e | rest'
      · rw [hrec] at h; simp at h
      · rw [hrec] at h
        injection h with h
        subst h
        intro o' ho'
        rcases List.mem_cons.mp ho' with he | hm
        · subst he; exact hid
        · exact ih i rest' hnd hrec o' hm

theorem detachAllSt_spec : ∀ (temps outs0 outs : List Outputter),
    (outs0.map Outputter.id).Nodup →
    detachAllSt temps outs0 = (outs, Option.none) →
    outs.Sublist outs0 ∧ ∀ m ∈ temps, ∀ o ∈ outs, o.id ≠ m.id := by
  intro temps
  induction temps with
  | nil =>
    intro outs0 outs _ h
    rw [detachAllSt] at h
    injection h with h _
    subst h
    exact ⟨List.Sublist.refl _, by simp⟩
  | cons m rest ih =>
    intro outs0 outs hnd h
    rw [detachAllSt] at h
    rcases hrm : removeById outs0 m.id with e | o1
    · rw [hrm] at h; simp at h
    · rw [hrm] at h
      have hsub1 : o1.Sublist outs0 := removeById_sublist outs0 m.id o1 hrm
      have hnd1 : (o1.map Outputter.id).Nodup :=
        List.Nodup.sublist (List.Sublist.map Outputter.id hsub1) hnd
      obtain ⟨hsub, hrest⟩ := ih o1 outs hnd1 h
      refine ⟨hsub.trans hsub1, ?_⟩
      intro m' hm' o ho
      rcases List.mem_cons.mp hm' with he | hmem
      · subst he
        exact removeById_id_gone outs0 m'.id o1 hnd hrm o (hsub.subset ho)
      · exact hrest m' hmem o ho

/-! ## Claim C4: cleanup on failure or cancellation -/

/-- Claim C4: the termination callback (run exactly once when the export
greenlet dies - the gevent `link` contract) detaches every temporary
outputter from the model and rewinds it, for every terminal state; and when
the task terminated with an exception or by cancellation (`GreenletExit`),
it emits exactly one `export_failed` event, assembles no artifact (and so
never emits `export_finished`), and raises nothing. -/
theorem claim_C4 (temps : List Outputter) (model : ModelState)
    (outcome : GrnOutcome) (fs : List FPath)
    (sessionPath modelFilename : String) (outs : List Outputter)
    (hnodup : (model.outputters.map Outputter.id).Nodup)
    (hdetach : detachAllSt temps model.outputters = (outs, Option.none)) :
    (cleanup temps model outcome fs sessionPath modelFilename).model.rewound = true ∧
    (cleanup temps model outcome fs sessionPath modelFilename).model.outputters = outs ∧
    (∀ m ∈ temps,
      ∀ o ∈ (cleanup temps model outcome fs sessionPath modelFilename).model.outputters,
        o.id ≠ m.id) ∧
    (failedOrKilled outcome = true →
      cleanup temps model outcome fs sessionPath modelFilename
        = { model := { outputters := outs, rewound := true },
            events := [ExportEvent.export_failed],
            artifact := Option.none, error := Option.none }) := by
  have hgone := (detachAllSt_spec temps model.outputters outs hnodup hdetach).2
  have hmodel : (cleanup temps model outcome fs sessionPath modelFilename).model
      = { outputters := outs, rewound := true } := by
    unfold cleanup
    rw [hdetach]
    by_cases hfk : failedOrKilled outcome = true
    · simp [hfk]
    · by_cases hlen : temps.length > 1
      · simp [hfk, hlen]
      · cases temps with
        | nil => simp [hfk, hlen]
        | cons m0 mrest =>
          simp only [hfk, Bool.false_eq_true, if_false]
          split <;> rfl
  have hfail : failedOrKilled outcome = true →
      cleanup temps model outcome fs sessionPath modelFilename
        = { model := { outputters := outs, rewound := true },
            events := [ExportEvent.export_failed],
            artifact := Option.none, error := Option.none } := by
    intro hfk
    unfold cleanup
    rw [hdetach]
    simp [hfk]
  refine ⟨by rw [hmodel], by rw [hmodel], ?_, hfail⟩
  intro m hm o ho
  rw [hmodel] at ho
  exact hgone m hm o ho

/-- Claim C4, witness: a killed export run with one attached outputter -
cleanup detaches it, rewinds, and emits only `export_failed`. -/
theorem claim_C4_witness :
    (cleanup [{ id := 1, filename := { dir := "td", base := "a.out" } }]
      { outputters := [{ id := 1, filename := { dir := "td", base := "a.out" } }],
        rewound := false }
      GrnOutcome.killed [] "sess" "mymodel")
      = { model := { outputters := [], rewound := true },
          events := [ExportEvent.export_failed],
          artifact := Option.none, error := Option.none } := by
  have h := claim_C4 [{ id := 1, filename := { dir := "td", base := "a.out" } }]
    { outputters := [{ id := 1, filename := { dir := "td", base := "a.out" } }],
      rewound := false }
    GrnOutcome.killed [] "sess" "mymodel" [] (by decide) (by decide)
  exact h.2.2.2 rfl

/-! ## Claim C5: artifact assembly on clean completion -/

/-- Claim C5: for an export run whose task completed cleanly, with more than
one temporary outputter the artifact is a deflate-compressed zip named
`<model_name>_output.zip` in the session directory with exactly one entry
per outputter, each named by the base filename of the outputter's resolved
file; with exactly one outputter its file is moved verbatim into the session
directory under its base filename; an `export_finished` event naming the
artifact is emitted; and when an expected file is absent the `.zip`-suffixed
path is used instead. -/
theorem claim_C5 (temps : List Outputter) (model : ModelState) (fs : List FPath)
    (sessionPath modelFilename : String) (outs : List Outputter)
    (hdetach : detachAllSt temps model.outputters = (outs, Option.none)) :
    (1 < temps.length →
      cleanup temps model GrnOutcome.completed fs sessionPath modelFilename
        = { model := { outputters := outs, rewound := true },
            events := [ExportEvent.export_finished (modelFilename ++ "_output.zip")],
            artifact := some (Artifact.zipArchive
              { dir := sessionPath, base := modelFilename ++ "_output.zip" }
              Compression.deflated
              (temps.map fun m =>
                (resolveOutputFile fs m.filename,
                 (resolveOutputFile fs m.filename).base))),
            error := Option.none }) ∧
    (∀ m0 : Outputter, temps = [m0] →
      cleanup temps model GrnOutcome.completed fs sessionPath modelFilename
        = { model := { outputters := outs, rewound := true },
            events := [ExportEvent.export_finished
              (resolveOutputFile fs m0.filename).base],
            artifact := some (Artifact.movedFile (resolveOutputFile fs m0.filename)
              { dir := sessionPath,
                base := (resolveOutputFile fs m0.filename).base }),
            error := Option.none }) ∧
    (∀ p : FPath, fs.contains p = false → resolveOutputFile fs p = addZipExt p) := by
  refine ⟨?_, ?_, ?_⟩
  · intro hlen
    unfold cleanup
    rw [hdetach]
    simp [failedOrKilled, hlen]
  · intro m0 htemps
    subst htemps
    unfold cleanup
    rw [hdetach]
    simp [failedOrKilled]
  · intro p hp
    unfold resolveOutputFile
    rw [hp]
    rfl

/-- Claim C5, witness: two outputters producing `a.out` and `b.out` - the
artifact is a deflated zip with exactly those two entries, named by base
filename. -/
theorem claim_C5_witness :
    cleanup
      [{ id := 1, filename := { dir := "td", base := "a.out" } },
       { id := 2, filename := { dir := "td", base := "b.out" } }]
      { outputters :=
          [{ id := 1, filename := { dir := "td", base := "a.out" } },
           { id := 2, filename := { dir := "td", base := "b.out" } }],
        rewound := false }
      GrnOutcome.completed
      [{ dir := "td", base := "a.out" }, { dir := "td", base := "b.out" }]
      "sess" "mymodel"
      = { model := { outputters := [], rewound := true },
          events := [ExportEvent.export_finished "mymodel_output.zip"],
          artifact := some (Artifact.zipArchive
            { dir := "sess", base := "mymodel_output.zip" }
            Compression.deflated
            [({ dir := "td", base := "a.out" }, "a.out"),
             ({ dir := "td", base := "b.out" }, "b.out")]),
          error := Option.none } := by
  have h := (claim_C5
    [{ id := 1, filename := { dir := "td", base := "a.out" } },
     { id := 2, filename := { dir := "td", base := "b.out" } }]
    { outputters :=
        [{ id := 1, filename := { dir := "td", base := "a.out" } },
         { id := 2, filename := { dir := "td", base := "b.out" } }],
      rewound := false }
    [{ dir := "td", base := "a.out" }, { dir := "td", base := "b.out" }]
    "sess" "mymodel" [] (by decide)).1 (by decide)
  exact h

/-! ## Aggregation lemmas -/

/-- The values a key takes in one fragment block, in order. -/
def collectB (k : String) (b : List (String × Int)) : List Int :=
  b.filterMap fun kv => if kv.1 = k then some kv.2 else Option.none

/-- The values a key takes across all fragment blocks, in fragment order. -/
def collect (k : String) (blocks : List (List (String × Int))) : List Int :=
  (blocks.map (collectB k)).flatten

theorem alistGet_appendAgg (agg : List (String × List Int)) (k' : String) (v : Int)
    (k : String) :
    alistGet (appendAgg agg k' v) k =
      if k' = k then some ((alistGet agg k).getD [] ++ [v])
      else alistGet agg k := by
  induction agg with
  | nil =>
    by_cases h : k' = k <;> simp [appendAgg, alistGet, h]
  | cons kv rest ih =>
    obtain ⟨k0, vs⟩ := kv
    by_cases h0 : k0 = k'
    · subst h0
      by_cases h1 : k0 = k <;> simp [appendAgg, alistGet, h1]
    · by_cases h1 : k0 = k
      · subst h1
        have h2 : k' ≠ k0 := fun hh => h0 hh.symm
        simp [appendAgg, alistGet, h0, h2]
      · simp [appendAgg, alistGet, h0, h1, ih]

theorem alistGet_foldBlock (b : List (String × Int)) :
    ∀ (agg : List (String × List Int)) (k : String),
    alistGet (foldBlock agg b) k =
      if collectB k b = [] then alistGet agg k
      else some ((alistGet agg k).getD [] ++ collectB k b) := by
  induction b with
  | nil => intro agg k; simp [foldBlock, collectB]
  | cons kv rest ih =>
    intro agg k
    obtain ⟨k0, v0⟩ := kv
    show alistGet (foldBlock (appendAgg agg k0 v0) rest) k = _
    rw [ih]
    by_cases h0 : k0 = k
    · have hc : collectB k ((k0, v0) :: rest) = v0 :: collectB k rest := by
        simp [collectB, h0]
      rw [alistGet_appendAgg, if_pos h0, hc]
      by_cases hr : collectB k rest = [] <;> simp [hr]
    · have hc : collectB k ((k0, v0) :: rest) = collectB k rest := by
        simp [collectB, h0]
      rw [alistGet_appendAgg, if_neg h0, hc]

theorem alistGet_foldl_foldBlock (blocks : List (List (String × Int))) :
    ∀ (agg : List (String × List Int)) (k : String),
    alistGet (blocks.foldl foldBlock agg) k =
      if collect k blocks = [] then alistGet agg k
      else some ((alistGet agg k).getD [] ++ collect k blocks) := by
  induction blocks with
  | nil => intro agg k; simp [collect]
  | cons b rest ih =>
    intro agg k
    show alistGet (rest.foldl foldBlock (foldBlock agg b)) k = _
    rw [ih, alistGet_foldBlock]
    have hc : collect k (b :: rest) = collectB k b ++ collect k rest := by
      simp [collect]
    rw [hc]
    by_cases hb : collectB k b = []
    · by_cases hr : collect k rest = [] <;> simp [hb, hr]
    · by_cases hr : collect k rest = [] <;> simp [hb, hr]

theorem alistGet_buildAgg (blocks : List (List (String × Int))) (k : String) :
    alistGet (blocks.foldl foldBlock []) k =
      if collect k blocks = [] then Option.none
      else some (collect k blocks) := by
  rw [alistGet_foldl_foldBlock]
  by_cases h : collect k blocks = [] <;> simp [h, alistGet]

theorem alistGet_mapVal {α β : Type} (f : α → β) (l : List (String × α)) (k : String) :
    alistGet (l.map fun kv => (kv.1, f kv.2)) k = (alistGet l k).map f := by
  induction l with
  | nil => rfl
  | cons kv rest ih =>
    obtain ⟨k0, v0⟩ := kv
    by_cases h : k0 = k <;> simp [alistGet, h, ih]

theorem foldlM_aggStep_ok (blocks : List (List (String × Int))) :
    ∀ init : List (String × List Int),
    List.foldlM aggStep init (blocks.map WorkerResult.ok)
      = Except.ok (blocks.foldl foldBlock init) := by
  induction blocks with
  | nil => intro init; rfl
  | cons b rest ih =>
    intro init
    show List.foldlM aggStep (foldBlock init b) (rest.map WorkerResult.ok)
      = Except.ok ((b :: rest).foldl foldBlock init)
    rw [ih]
    rfl

theorem foldlM_aggStep_err (frags : List WorkerResult) :
    ∀ (init : List (String × List Int)) (m c : String),
    firstFailure frags = some (m, c) →
    List.foldlM aggStep init frags = Except.error (StepErr.workerFailure m c) := by
  induction frags with
  | nil => intro init m c h; simp [firstFailure] at h
  | cons s rest ih =>
    intro init m c h
    cases s with
    | ok b =>
      simp only [firstFailure] at h
      show List.foldlM aggStep (foldBlock init b) rest = _
      exact ih _ m c h
    | failure m' c' =>
      simp only [firstFailure, Option.some.injEq, Prod.mk.injEq] at h
      obtain ⟨hm, hc⟩ := h
      subst hm
      subst hc
      rfl

/-! ## Minimum and maximum of a non-empty list -/

theorem foldl_min_le_init : ∀ (l : List Int) (v : Int), l.foldl min v ≤ v := by
  intro l
  induction l with
  | nil => intro v; simp
  | cons a rest ih =>
    intro v
    calc (a :: rest).foldl min v = rest.foldl min (min v a) := rfl
    _ ≤ min v a := ih _
    _ ≤ v := min_le_left _ _

theorem foldl_min_le_mem : ∀ (l : List Int) (v x : Int), x ∈ l → l.foldl min v ≤ x := by
  intro l
  induction l with
  | nil => intro v x hx; simp at hx
  | cons a rest ih =>
    intro v x hx
    rcases List.mem_cons.mp hx with he | hm
    · subst he
      calc (x :: rest).foldl min v = rest.foldl min (min v x) := rfl
      _ ≤ min v x := foldl_min_le_init _ _
      _ ≤ x := min_le_right _ _
    · exact ih (min v a) x hm

theorem foldl_min_mem : ∀ (l : List Int) (v : Int), l.foldl min v = v ∨ l.foldl min v ∈ l := by
  intro l
  induction l with
  | nil => intro v; left; rfl
  | cons a rest ih =>
    intro v
    rcases ih (min v a) with h | h
    · rcases min_choice v a with hv | ha
      · left
        show rest.foldl min (min v a) = v
        rw [h, hv]
      · right
        show rest.foldl min (min v a) ∈ a :: rest
        rw [h, ha]
        exact List.mem_cons_self a rest
    · right
      exact List.mem_cons_of_mem a h

/-- Python `min` of a non-empty list is a member and a lower bound. -/
theorem pyMin_spec (vs : List Int) (h : vs ≠ []) :
    pyMin vs ∈ vs ∧ ∀ x ∈ vs, pyMin vs ≤ x := by
  cases vs with
  | nil => exact absurd rfl h
  | cons v rest =>
    constructor
    · rcases foldl_min_mem rest v with h1 | h1
      · rw [pyMin, h1]; exact List.mem_cons_self v rest
      · rw [pyMin]; exact List.mem_cons_of_mem v h1
    · intro x hx
      rcases List.mem_cons.mp hx with he | hm
      · subst he; exact foldl_min_le_init rest x
      · exact foldl_min_le_mem rest v x hm

theorem foldl_max_ge_init : ∀ (l : List Int) (v : Int), v ≤ l.foldl max v := by
  intro l
  induction l with
  | nil => intro v; simp
  | cons a rest ih =>
    intro v
    calc v ≤ max v a := le_max_left _ _
    _ ≤ rest.foldl max (max v a) := ih _
    _ = (a :: rest).foldl max v := rfl

theorem foldl_max_ge_mem : ∀ (l : List Int) (v x : Int), x ∈ l → x ≤ l.foldl max v := by
  intro l
  induction l with
  | nil => intro v x hx; simp at hx
  | cons a rest ih =>
    intro v x hx
    rcases List.mem_cons.mp hx with he | hm
    · subst he
      calc x ≤ max v x := le_max_right _ _
      _ ≤ rest.foldl max (max v x) := foldl_max_ge_init _ _
      _ = (x :: rest).foldl max v := rfl
    · exact ih (max v a) x hm

theorem foldl_max_mem : ∀ (l : List Int) (v : Int), l.foldl max v = v ∨ l.foldl max v ∈ l := by
  intro l
  induction l with
  | nil => intro v; left; rfl
  | cons a rest ih =>
    intro v
    rcases ih (max v a) with h | h
    · rcases max_choice v a with hv | ha
      · left
        show rest.foldl max (max v a) = v
        rw [h, hv]
      · right
        show rest.foldl max (max v a) ∈ a :: rest
        rw [h, ha]
        exact List.mem_cons_self a rest
    · right
      exact List.mem_cons_of_mem a h

/-- Python `max` of a non-empty list is a member and an upper bound. -/
theorem pyMax_spec (vs : List Int) (h : vs ≠ []) :
    pyMax vs ∈ vs ∧ ∀ x ∈ vs, x ≤ pyMax vs := by
  cases vs with
  | nil => exact absurd rfl h
  | cons v rest =>
    constructor
    · rcases foldl_max_mem rest v with h1 | h1
      · rw [pyMax, h1]; exact List.mem_cons_self v rest
      · rw [pyMax]; exact List.mem_cons_of_mem v h1
    · intro x hx
      rcases List.mem_cons.mp hx with he | hm
      · subst he; exact foldl_max_ge_init rest x
      · exact foldl_max_ge_mem rest v x hm

/-! ## Shape of the combined block -/

theorem foldl_dictSet_enumFrom (frags : List WorkerResult) :
    ∀ (n : Nat) (base : List (PyKey × PyVal)),
    (∀ m, n ≤ m → dictGet base (PyKey.idx m) = Option.none) →
    (List.enumFrom n frags).foldl
        (fun fo p => dictSet fo (PyKey.idx p.1) (fragVal p.2)) base
      = base ++ (List.enumFrom n frags).map (fun p => (PyKey.idx p.1, fragVal p.2)) := by
  induction frags with
  | nil => intro n base _; simp [List.enumFrom]
  | cons f rest ih =>
    intro n base hb
    have h1 : dictSet base (PyKey.idx n) (fragVal f) = base ++ [(PyKey.idx n, fragVal f)] :=
      dictSet_not_mem _ _ _ (hb n le_rfl)
    have h2 : ∀ m, n + 1 ≤ m →
        dictGet (base ++ [(PyKey.idx n, fragVal f)]) (PyKey.idx m) = Option.none := by
      intro m hm
      have hnm : n ≠ m := by omega
      rw [dictGet_append, hb m (by omega)]
      simp [dictGet, hnm]
    show (List.enumFrom (n + 1) rest).foldl _ (dictSet base (PyKey.idx n) (fragVal f)) = _
    rw [h1, ih (n + 1) _ h2]
    simp [List.enumFrom]

theorem enumFrom_map_ok (blocks : List (List (String × Int))) :
    ∀ n : Nat,
    (List.enumFrom n (blocks.map WorkerResult.ok)).map
        (fun p => (PyKey.idx p.1, fragVal p.2))
      = (List.enumFrom n blocks).map (fun p => (PyKey.idx p.1, blockVal p.2)) := by
  induction blocks with
  | nil => intro n; rfl
  | cons b rest ih =>
    intro n
    show (PyKey.idx n, fragVal (WorkerResult.ok b)) ::
        (List.enumFrom (n + 1) (rest.map WorkerResult.ok)).map _
      = (PyKey.idx n, blockVal b) :: (List.enumFrom (n + 1) rest).map _
    rw [ih (n + 1)]
    rfl

theorem fullOutputWith_ok (ts nominal : PyVal) (lo hi : List (String × Int))
    (blocks : List (List (String × Int))) :
    fullOutputWith ts nominal lo hi (blocks.map WorkerResult.ok)
      = [(PyKey.str "time_stamp", ts), (PyKey.str "nominal", nominal),
         (PyKey.str "low", blockVal lo), (PyKey.str "high", blockVal hi)]
        ++ blocks.enum.map (fun p => (PyKey.idx p.1, blockVal p.2)) := by
  unfold fullOutputWith
  show (List.enumFrom 0 (blocks.map WorkerResult.ok)).foldl _ _ = _
  rw [foldl_dictSet_enumFrom (blocks.map WorkerResult.ok) 0
    [(PyKey.str "time_stamp", ts), (PyKey.str "nominal", nominal),
     (PyKey.str "low", blockVal lo), (PyKey.str "high", blockVal hi)]
    (fun m _ => rfl)]
  rw [enumFrom_map_ok blocks 0]
  rfl

/-! ## Claim C2: ensemble aggregation -/

/-- Claim C2: when uncertainty-worker fragments exist, none encodes a
failure, and the nominal output contains the `WeatheringOutput` block, the
emitted record replaces that block by `{time_stamp: nominal's, nominal:
nominal's block, low, high}` followed by one entry per worker index holding
that fragment's block; `low` maps exactly the keys occurring in the
fragments' blocks to the minimum of that key's values across all fragments,
and `high` to the maximum. -/
theorem claim_C2 (output : List (PyKey × PyVal)) (blocks : List (List (String × Int)))
    (nomEntries : List (PyKey × PyVal)) (ts : PyVal) (tBegin tBeginUnc tEnd : Int)
    (hne : blocks ≠ [])
    (hwo : dictGet output (PyKey.str "WeatheringOutput") = some (PyVal.dict nomEntries))
    (hts : dictGet nomEntries (PyKey.str "time_stamp") = some ts) :
    ∃ lo hi : List (String × Int),
      processStepOutput output (some (blocks.map WorkerResult.ok)) tBegin tBeginUnc tEnd
        = Except.ok (dictSet (dictSet (dictSet output (PyKey.str "WeatheringOutput")
            (PyVal.dict
              ([(PyKey.str "time_stamp", ts),
                (PyKey.str "nominal", PyVal.dict nomEntries),
                (PyKey.str "low", blockVal lo), (PyKey.str "high", blockVal hi)]
               ++ blocks.enum.map (fun p => (PyKey.idx p.1, blockVal p.2)))))
            (PyKey.str "uncertain_response_time") (PyVal.int (tEnd - tBeginUnc)))
            (PyKey.str "total_response_time") (PyVal.int (tEnd - tBegin))) ∧
      (∀ k : String, collect k blocks ≠ [] →
        alistGet lo k = some (pyMin (collect k blocks)) ∧
        alistGet hi k = some (pyMax (collect k blocks)) ∧
        pyMin (collect k blocks) ∈ collect k blocks ∧
        pyMax (collect k blocks) ∈ collect k blocks ∧
        (∀ x ∈ collect k blocks,
          pyMin (collect k blocks) ≤ x ∧ x ≤ pyMax (collect k blocks))) ∧
      (∀ k : String, collect k blocks = [] →
        alistGet lo k = Option.none ∧ alistGet hi k = Option.none) := by
  refine ⟨lowOf (blocks.foldl foldBlock []), highOf (blocks.foldl foldBlock []),
    ?_, ?_, ?_⟩
  · have hcond : (stepsTruthy (some (blocks.map WorkerResult.ok)) &&
        (dictGet output (PyKey.str "WeatheringOutput")).isSome) = true := by
      rw [hwo]
      cases blocks with
      | nil => exact absurd rfl hne
      | cons b bs => rfl
    have hagg : buildAggregate (blocks.map WorkerResult.ok)
        = Except.ok (blocks.foldl foldBlock []) := foldlM_aggStep_ok blocks []
    unfold processStepOutput
    rw [if_pos hcond]
    simp only [hwo, Option.getD_some, hagg]
    have htime : getTimeStamp (PyVal.dict nomEntries) = Except.ok ts := by
      show (match dictGet nomEntries (PyKey.str "time_stamp") with
            | some v => Except.ok v
            | Option.none => Except.error (StepErr.keyError "time_stamp"))
          = Except.ok ts
      rw [hts]
    simp only [htime]
    rw [fullOutputWith_ok]
  · intro k hk
    have hlo : alistGet (lowOf (blocks.foldl foldBlock [])) k
        = some (pyMin (collect k blocks)) := by
      unfold lowOf
      rw [alistGet_mapVal pyMin, alistGet_buildAgg, if_neg hk]
      rfl
    have hhi : alistGet (highOf (blocks.foldl foldBlock [])) k
        = some (pyMax (collect k blocks)) := by
      unfold highOf
      rw [alistGet_mapVal pyMax, alistGet_buildAgg, if_neg hk]
      rfl
    obtain ⟨hmem1, hle1⟩ := pyMin_spec (collect k blocks) hk
    obtain ⟨hmem2, hle2⟩ := pyMax_spec (collect k blocks) hk
    exact ⟨hlo, hhi, hmem1, hmem2, fun x hx => ⟨hle1 x hx, hle2 x hx⟩⟩
  · intro k hk
    constructor
    · unfold lowOf
      rw [alistGet_mapVal pyMin, alistGet_buildAgg, if_pos hk]
      rfl
    · unfold highOf
      rw [alistGet_mapVal pyMax, alistGet_buildAgg, if_pos hk]
      rfl

/-- Claim C2, witness: for fragments `[{a:1},{a:3},{a:2}]` the aggregated
`low.a` is 1 and `high.a` is 3. -/
theorem claim_C2_witness :
    ∃ lo hi : List (String × Int),
      alistGet lo "a" = some 1 ∧ alistGet hi "a" = some 3 := by
  obtain ⟨lo, hi, _, hk, _⟩ := claim_C2
    [(PyKey.str "WeatheringOutput", PyVal.dict [(PyKey.str "time_stamp", PyVal.int 0)])]
    [[("a", 1)], [("a", 3)], [("a", 2)]]
    [(PyKey.str "time_stamp", PyVal.int 0)] (PyVal.int 0) 0 0 0
    (by decide) rfl rfl
  obtain ⟨hlo, hhi, _⟩ := hk "a" (by decide)
  refine ⟨lo, hi, ?_, ?_⟩
  · rw [hlo]
    rw [show pyMin (collect "a" [[("a", 1)], [("a", 3)], [("a", 2)]]) = 1 from by decide]
  · rw [hhi]
    rw [show pyMax (collect "a" [[("a", 1)], [("a", 3)], [("a", 2)]]) = 3 from by decide]

/-! ## Equations of the stepping loop -/

theorem awaitNextStep_eq (g : Gate) (s : Bool) : awaitNextStep g s = ([], false) := rfl

theorem runLoop_pendingKill (cfg : ModelCfg) (stepIdx : Nat) (uSet : Bool)
    (copy : SockSession) :
    runLoop cfg stepIdx uSet true copy
      = { events := [SockEvent.killed "Model run terminated early"],
          exit := TaskExit.killedExit, stored := copy,
          stepsTaken := 0, killRequests := 0 } := by
  rw [runLoop]
  rfl

theorem runLoop_stop (cfg : ModelCfg) (stepIdx : Nat) (uSet : Bool)
    (copy : SockSession) (h : ¬ stepIdx < cfg.totalSteps) :
    runLoop cfg stepIdx uSet false copy
      = { events := [SockEvent.complete "Model run completed"],
          exit := TaskExit.completed, stored := copy,
          stepsTaken := 0, killRequests := 0 } := by
  rw [runLoop]
  simp [h]

theorem runLoop_step_err (cfg : ModelCfg) (stepIdx : Nat) (uSet : Bool)
    (copy : SockSession) (e : StepErr)
    (h : stepIdx < cfg.totalSteps)
    (hp : processStepOutput (cfg.stepOutputs stepIdx)
        (if (if stepIdx = 0 then cfg.has_weathering_uncertainty else uSet)
         then some (cfg.workerResults stepIdx) else Option.none)
        (cfg.stepTimes stepIdx).1 (cfg.stepTimes stepIdx).2.1
        (cfg.stepTimes stepIdx).2.2
      = Except.error e) :
    runLoop cfg stepIdx uSet false copy
      = { events := [SockEvent.runtimeError e.msg],
          exit := TaskExit.failed e, stored := copy,
          stepsTaken := 1, killRequests := 0 } := by
  rw [runLoop]
  simp only [hp]
  rw [if_neg Bool.false_ne_true, dif_pos h]

theorem runLoop_step_ok (cfg : ModelCfg) (stepIdx : Nat) (uSet : Bool)
    (copy : SockSession) (out : List (PyKey × PyVal))
    (h : stepIdx < cfg.totalSteps)
    (hp : processStepOutput (cfg.stepOutputs stepIdx)
        (if (if stepIdx = 0 then cfg.has_weathering_uncertainty else uSet)
         then some (cfg.workerResults stepIdx) else Option.none)
        (cfg.stepTimes stepIdx).1 (cfg.stepTimes stepIdx).2.1
        (cfg.stepTimes stepIdx).2.2
      = Except.ok out) :
    runLoop cfg stepIdx uSet false copy
      = { events :=
            (if !out.isEmpty && cfg.send_output then SockEvent.stepOutput out
             else SockEvent.stepCounter (copy.num_sent + 1)) ::
            (runLoop cfg (stepIdx + 1)
              (if stepIdx = 0 then cfg.has_weathering_uncertainty else uSet) false
              { copy with num_sent := copy.num_sent + 1 }).events,
          exit := (runLoop cfg (stepIdx + 1)
              (if stepIdx = 0 then cfg.has_weathering_uncertainty else uSet) false
              { copy with num_sent := copy.num_sent + 1 }).exit,
          stored := (runLoop cfg (stepIdx + 1)
              (if stepIdx = 0 then cfg.has_weathering_uncertainty else uSet) false
              { copy with num_sent := copy.num_sent + 1 }).stored,
          stepsTaken := 1 + (runLoop cfg (stepIdx + 1)
              (if stepIdx = 0 then cfg.has_weathering_uncertainty else uSet) false
              { copy with num_sent := copy.num_sent + 1 }).stepsTaken,
          killRequests := (runLoop cfg (stepIdx + 1)
              (if stepIdx = 0 then cfg.has_weathering_uncertainty else uSet) false
              { copy with num_sent := copy.num_sent + 1 }).killRequests } := by
  rw [runLoop]
  simp only [hp, awaitNextStep_eq]
  rw [if_neg Bool.false_ne_true, dif_pos h]
  simp

/-! ## Claim C3: worker-failure propagation -/

theorem processStepOutput_workerFailure (output : List (PyKey × PyVal))
    (frags : List WorkerResult) (m c : String) (tB tBU tE : Int)
    (hfail : firstFailure frags = some (m, c))
    (hwo : (dictGet output (PyKey.str "WeatheringOutput")).isSome = true) :
    processStepOutput output (some frags) tB tBU tE
      = Except.error (StepErr.workerFailure m c) := by
  have hne : frags ≠ [] := by
    intro hq
    subst hq
    simp [firstFailure] at hfail
  have hcond : (stepsTruthy (some frags) &&
      (dictGet output (PyKey.str "WeatheringOutput")).isSome) = true := by
    rw [hwo]
    cases frags with
    | nil => exact absurd rfl hne
    | cons f fs => rfl
  have hagg : buildAggregate frags = Except.error (StepErr.workerFailure m c) := by
    unfold buildAggregate
    exact foldlM_aggStep_err frags [] m c hfail
  unfold processStepOutput
  rw [if_pos hcond]
  simp only [Option.getD_some, hagg]

/-- A run in which the only uncertainty worker of the first step reports a
failure, but the nominal step output carries no `WeatheringOutput` block. -/
def droppedFailCfg : ModelCfg :=
  { totalSteps := 1, has_weathering_uncertainty := true,
    stepOutputs := fun _ => [(PyKey.str "step_num", PyVal.int 0)],
    workerResults := fun _ => [WorkerResult.failure "boom" "tb0"],
    stepTimes := fun _ => (0, 0, 0), startGateSet := true,
    midGateSet := fun _ => true, is_async := true, send_output := true,
    entrySession := { num_sent := 0, other := [] } }

/-- Claim C3, counterexample: uncertainty workers are present (`steps` is
truthy) and the single fragment encodes a failure, yet the run completes
cleanly - no `runtimeError` event, a `step` record is emitted, and the task
ends in the Completed state.  The failure check of lines 278-281 sits inside
`if steps and 'WeatheringOutput' in output:` (line 266), so when the nominal
output lacks the `WeatheringOutput` block the failing fragment is silently
dropped, contradicting the claim as stated (which has no such condition). -/
theorem claim_C3_counterexample :
    stepsTruthy (some (droppedFailCfg.workerResults 0)) = true ∧
    firstFailure (droppedFailCfg.workerResults 0) = some ("boom", "tb0") ∧
    (execute_async_model droppedFailCfg).exit = TaskExit.completed ∧
    (execute_async_model droppedFailCfg).events
        = [SockEvent.prepared,
           SockEvent.stepOutput [(PyKey.str "step_num", PyVal.int 0)],
           SockEvent.complete "Model run completed"] := by
  have h0 : processStepOutput (droppedFailCfg.stepOutputs 0)
      (if (if 0 = 0 then droppedFailCfg.has_weathering_uncertainty else false)
       then some (droppedFailCfg.workerResults 0) else Option.none)
      (droppedFailCfg.stepTimes 0).1 (droppedFailCfg.stepTimes 0).2.1
      (droppedFailCfg.stepTimes 0).2.2
      = Except.ok [(PyKey.str "step_num", PyVal.int 0)] := rfl
  have hstep := runLoop_step_ok droppedFailCfg 0 false droppedFailCfg.entrySession
      [(PyKey.str "step_num", PyVal.int 0)] (by decide) h0
  have hstop := runLoop_stop droppedFailCfg (0 + 1)
      (if 0 = 0 then droppedFailCfg.has_weathering_uncertainty else false)
      { droppedFailCfg.entrySession with
        num_sent := droppedFailCfg.entrySession.num_sent + 1 } (by decide)
  have hexec : execute_async_model droppedFailCfg
      = { events := [SockEvent.prepared,
            SockEvent.stepOutput [(PyKey.str "step_num", PyVal.int 0)],
            SockEvent.complete "Model run completed"],
          exit := TaskExit.completed,
          stored := { num_sent := 1, other := [] },
          stepsTaken := 1, killRequests := 0 } := by
    unfold execute_async_model
    rw [show droppedFailCfg.startGateSet = true from rfl, if_pos rfl, hstep, hstop]
    rfl
  rw [hexec]
  exact ⟨rfl, rfl, rfl, rfl⟩

theorem runLoop_fail_after (cfg : ModelCfg) (m c : String)
    (hwu : cfg.has_weathering_uncertainty = true) :
    ∀ (d stepIdx : Nat) (uSet : Bool) (copy : SockSession),
    stepIdx = 0 ∨ uSet = true →
    stepIdx + d < cfg.totalSteps →
    (∀ i, stepIdx ≤ i → i < stepIdx + d → ∃ out,
        processStepOutput (cfg.stepOutputs i) (some (cfg.workerResults i))
          (cfg.stepTimes i).1 (cfg.stepTimes i).2.1 (cfg.stepTimes i).2.2
          = Except.ok out) →
    firstFailure (cfg.workerResults (stepIdx + d)) = some (m, c) →
    (dictGet (cfg.stepOutputs (stepIdx + d)) (PyKey.str "WeatheringOutput")).isSome
        = true →
    ∃ pre : List SockEvent,
      (runLoop cfg stepIdx uSet false copy).events = pre ++ [SockEvent.runtimeError m] ∧
      pre.length = d ∧
      (∀ e ∈ pre, isStepEv e = true) ∧
      (runLoop cfg stepIdx uSet false copy).exit
          = TaskExit.failed (StepErr.workerFailure m c) ∧
      (runLoop cfg stepIdx uSet false copy).stepsTaken = d + 1 := by
  intro d
  induction d with
  | zero =>
    intro stepIdx uSet copy hu hlt hprev hfail hwo
    have huSet : (if stepIdx = 0 then cfg.has_weathering_uncertainty else uSet)
        = true := by
      rcases hu with h | h
      · rw [if_pos h]; exact hwu
      · by_cases h0 : stepIdx = 0
        · rw [if_pos h0]; exact hwu
        · rw [if_neg h0]; exact h
    have hp : processStepOutput (cfg.stepOutputs stepIdx)
        (if (if stepIdx = 0 then cfg.has_weathering_uncertainty else uSet)
         then some (cfg.workerResults stepIdx) else Option.none)
        (cfg.stepTimes stepIdx).1 (cfg.stepTimes stepIdx).2.1
        (cfg.stepTimes stepIdx).2.2
        = Except.error (StepErr.workerFailure m c) := by
      rw [huSet, if_pos rfl]
      exact processStepOutput_workerFailure _ _ m c _ _ _ hfail hwo
    have hlt0 : stepIdx < cfg.totalSteps := by omega
    rw [runLoop_step_err cfg stepIdx uSet copy _ hlt0 hp]
    exact ⟨[], rfl, rfl, by simp, rfl, rfl⟩
  | succ d ih =>
    intro stepIdx uSet copy hu hlt hprev hfail hwo
    have huSet : (if stepIdx = 0 then cfg.has_weathering_uncertainty else uSet)
        = true := by
      rcases hu with h | h
      · rw [if_pos h]; exact hwu
      · by_cases h0 : stepIdx = 0
        · rw [if_pos h0]; exact hwu
        · rw [if_neg h0]; exact h
    obtain ⟨out, hout⟩ := hprev stepIdx le_rfl (by omega)
    have hp : processStepOutput (cfg.stepOutputs stepIdx)
        (if (if stepIdx = 0 then cfg.has_weathering_uncertainty else uSet)
         then some (cfg.workerResults stepIdx) else Option.none)
        (cfg.stepTimes stepIdx).1 (cfg.stepTimes stepIdx).2.1
        (cfg.stepTimes stepIdx).2.2
        = Except.ok out := by
      rw [huSet, if_pos rfl]
      exact hout
    have hlt0 : stepIdx < cfg.totalSteps := by omega
    have harg : stepIdx + 1 + d = stepIdx + (d + 1) := by omega
    obtain ⟨pre, hev, hlen, hstep, hexit, htaken⟩ :=
      ih (stepIdx + 1) (if stepIdx = 0 then cfg.has_weathering_uncertainty else uSet)
        { copy with num_sent := copy.num_sent + 1 }
        (Or.inr huSet)
        (by omega)
        (fun i h1 h2 => hprev i (by omega) (by omega))
        (by rw [harg]; exact hfail)
        (by rw [harg]; exact hwo)
    rw [runLoop_step_ok cfg stepIdx uSet copy out hlt0 hp]
    refine ⟨(if !out.isEmpty && cfg.send_output then SockEvent.stepOutput out
             else SockEvent.stepCounter (copy.num_sent + 1)) :: pre,
      ?_, ?_, ?_, ?_, ?_⟩
    · show (if !out.isEmpty && cfg.send_output then SockEvent.stepOutput out
            else SockEvent.stepCounter (copy.num_sent + 1)) ::
          (runLoop cfg (stepIdx + 1)
            (if stepIdx = 0 then cfg.has_weathering_uncertainty else uSet) false
            { copy with num_sent := copy.num_sent + 1 }).events = _
      rw [hev]
      simp
    · simp [hlen]
    · intro e he
      rcases List.mem_cons.mp he with h | h
      · subst h
        by_cases hc : (!out.isEmpty && cfg.send_output) = true <;>
          simp [hc, isStepEv]
      · exact hstep e h
    · exact hexit
    · show 1 + (runLoop cfg (stepIdx + 1)
          (if stepIdx = 0 then cfg.has_weathering_uncertainty else uSet) false
          { copy with num_sent := copy.num_sent + 1 }).stepsTaken = d + 1 + 1
      omega

/-- Claim C3, amended: for every step whose nominal output contains the
`WeatheringOutput` block, with uncertainty workers present, if some worker
fragment of that step encodes a failure then the first such failure (in
worker-index order) is re-raised with its original context - it reaches the
termination callback as the Failed exit value - aggregation for that step is
halted (no step record is emitted for it: exactly one step event per earlier
step precedes), the failure is reported as a `runtimeError` event carrying
its message, and the task terminates in the Failed state.  (When the step
output lacks the block, the line-266 guard skips the failure check and the
fragment is silently ignored - see the counterexample.) -/
theorem claim_C3 (cfg : ModelCfg) (j : Nat) (m c : String)
    (hstart : cfg.startGateSet = true)
    (hwu : cfg.has_weathering_uncertainty = true)
    (hj : j < cfg.totalSteps)
    (hprev : ∀ i, i < j → ∃ out,
        processStepOutput (cfg.stepOutputs i) (some (cfg.workerResults i))
          (cfg.stepTimes i).1 (cfg.stepTimes i).2.1 (cfg.stepTimes i).2.2
          = Except.ok out)
    (hfail : firstFailure (cfg.workerResults j) = some (m, c))
    (hwo : (dictGet (cfg.stepOutputs j) (PyKey.str "WeatheringOutput")).isSome
        = true) :
    (execute_async_model cfg).exit = TaskExit.failed (StepErr.workerFailure m c) ∧
    (execute_async_model cfg).stepsTaken = j + 1 ∧
    ∃ pre : List SockEvent,
      (execute_async_model cfg).events
          = SockEvent.prepared :: (pre ++ [SockEvent.runtimeError m]) ∧
      pre.length = j ∧ ∀ e ∈ pre, isStepEv e = true := by
  have h0j : (0 : Nat) + j = j := by omega
  obtain ⟨pre, hev, hlen, hstep, hexit, htaken⟩ :=
    runLoop_fail_after cfg m c hwu j 0 false cfg.entrySession (Or.inl rfl)
      (by omega)
      (fun i h1 h2 => hprev i (by omega))
      (by rw [h0j]; exact hfail)
      (by rw [h0j]; exact hwo)
  have hexec : execute_async_model cfg
      = { runLoop cfg 0 false false cfg.entrySession with
          events := SockEvent.prepared ::
            (runLoop cfg 0 false false cfg.entrySession).events } := by
    unfold execute_async_model
    rw [hstart, if_pos rfl]
  rw [hexec]
  refine ⟨hexit, htaken, pre, ?_, hlen, hstep⟩
  show SockEvent.prepared :: (runLoop cfg 0 false false cfg.entrySession).events = _
  rw [hev]

/-- A run in which the second uncertainty worker of the first step reports a
failure and the step output carries the `WeatheringOutput` block. -/
def workerFailCfg : ModelCfg :=
  { totalSteps := 1, has_weathering_uncertainty := true,
    stepOutputs := fun _ =>
      [(PyKey.str "WeatheringOutput", PyVal.dict [(PyKey.str "time_stamp", PyVal.int 0)])],
    workerResults := fun _ =>
      [WorkerResult.ok [("a", 1)], WorkerResult.failure "boom" "tb0"],
    stepTimes := fun _ => (0, 0, 0), startGateSet := true,
    midGateSet := fun _ => true, is_async := true, send_output := true,
    entrySession := { num_sent := 0, other := [] } }

/-- Claim C3, witness: in `workerFailCfg` the failure of worker index 1 (the
first failure in index order, after an ok fragment at index 0) terminates
the task Failed, with its message on the `runtimeError` event and its
context preserved in the exit value. -/
theorem claim_C3_witness :
    (execute_async_model workerFailCfg).exit
        = TaskExit.failed (StepErr.workerFailure "boom" "tb0") ∧
    (execute_async_model workerFailCfg).events
        = [SockEvent.prepared, SockEvent.runtimeError "boom"] := by
  obtain ⟨hexit, htaken, pre, hev, hlen, _⟩ :=
    claim_C3 workerFailCfg 0 "boom" "tb0" rfl rfl (by decide)
      (fun i hi => absurd hi (by omega)) rfl rfl
  have hpre : pre = [] := List.length_eq_zero.mp hlen
  subst hpre
  exact ⟨hexit, by simpa using hev⟩

/-! ## Claim C7: startup timeout -/

/-- Claim C7: a run whose Gate is never set within the 16-unit startup
window emits exactly one `timeout` event, requests self-cancellation
(`on_model_kill`), and emits no `step` events; the model is never stepped
and the task unwinds through the killed path. -/
theorem claim_C7 (cfg : ModelCfg) (h : cfg.startGateSet = false) :
    (execute_async_model cfg).events
        = [SockEvent.prepared,
           SockEvent.timeout "Model not started, timed out after 16 sec",
           SockEvent.killed "Model run terminated early"] ∧
    (execute_async_model cfg).events.countP isTimeoutEv = 1 ∧
    (execute_async_model cfg).events.countP isStepEv = 0 ∧
    (execute_async_model cfg).stepsTaken = 0 ∧
    (execute_async_model cfg).killRequests = 1 ∧
    (execute_async_model cfg).exit = TaskExit.killedExit := by
  have hexec : execute_async_model cfg
      = { events := [SockEvent.prepared,
            SockEvent.timeout "Model not started, timed out after 16 sec",
            SockEvent.killed "Model run terminated early"],
          exit := TaskExit.killedExit, stored := cfg.entrySession,
          stepsTaken := 0, killRequests := 1 } := by
    unfold execute_async_model
    rw [h, if_neg Bool.false_ne_true]
    rw [show (onModelKill : Bool) = true from rfl, runLoop_pendingKill]
    rfl
  rw [hexec]
  exact ⟨rfl, rfl, rfl, rfl, rfl, rfl⟩

/-- A run whose Gate is never set. -/
def timeoutCfg : ModelCfg :=
  { totalSteps := 3, has_weathering_uncertainty := false,
    stepOutputs := fun _ => [], workerResults := fun _ => [],
    stepTimes := fun _ => (0, 0, 0), startGateSet := false,
    midGateSet := fun _ => false, is_async := true, send_output := true,
    entrySession := { num_sent := 0, other := [] } }

/-- Claim C7, witness: the startup-timeout behaviour at a concrete run. -/
theorem claim_C7_witness :
    (execute_async_model timeoutCfg).events
        = [SockEvent.prepared,
           SockEvent.timeout "Model not started, timed out after 16 sec",
           SockEvent.killed "Model run terminated early"] ∧
    (execute_async_model timeoutCfg).stepsTaken = 0 ∧
    (execute_async_model timeoutCfg).killRequests = 1 := by
  have h := claim_C7 timeoutCfg rfl
  exact ⟨h.1, h.2.2.2.1, h.2.2.2.2.1⟩

/-! ## Claim C10: the session write-back at task exit -/

theorem runLoop_stored_frame (cfg : ModelCfg) :
    ∀ (fuel stepIdx : Nat), cfg.totalSteps - stepIdx ≤ fuel →
    ∀ (uSet pk : Bool) (copy : SockSession),
    (runLoop cfg stepIdx uSet pk copy).stored.other = copy.other ∧
    (runLoop cfg stepIdx uSet pk copy).stored.num_sent
      = copy.num_sent + ((runLoop cfg stepIdx uSet pk copy).events.countP isStepEv) := by
  intro fuel
  induction fuel with
  | zero =>
    intro stepIdx hf uSet pk copy
    cases pk with
    | true =>
      rw [runLoop_pendingKill]
      simp [isStepEv]
    | false =>
      have hlt : ¬ stepIdx < cfg.totalSteps := by omega
      rw [runLoop_stop cfg stepIdx uSet copy hlt]
      simp [isStepEv]
  | succ n ih =>
    intro stepIdx hf uSet pk copy
    cases pk with
    | true =>
      rw [runLoop_pendingKill]
      simp [isStepEv]
    | false =>
      by_cases hlt : stepIdx < cfg.totalSteps
      · rcases hp : processStepOutput (cfg.stepOutputs stepIdx)
            (if (if stepIdx = 0 then cfg.has_weathering_uncertainty else uSet)
             then some (cfg.workerResults stepIdx) else Option.none)
            (cfg.stepTimes stepIdx).1 (cfg.stepTimes stepIdx).2.1
            (cfg.stepTimes stepIdx).2.2 with e | out
        · rw [runLoop_step_err cfg stepIdx uSet copy e hlt hp]
          simp [isStepEv]
        · rw [runLoop_step_ok cfg stepIdx uSet copy out hlt hp]
          obtain ⟨ho, hn⟩ := ih (stepIdx + 1) (by omega)
            (if stepIdx = 0 then cfg.has_weathering_uncertainty else uSet) false
            { copy with num_sent := copy.num_sent + 1 }
          have hev : isStepEv
              (if !out.isEmpty && cfg.send_output then SockEvent.stepOutput out
               else SockEvent.stepCounter (copy.num_sent + 1)) = true := by
            by_cases hc : (!out.isEmpty && cfg.send_output) = true <;>
              simp [hc, isStepEv]
          constructor
          · simpa using ho
          · simp only [List.countP_cons, hev]
            rw [hn, if_pos trivial]
            push_cast
            ring
      · rw [runLoop_stop cfg stepIdx uSet copy hlt]
        simp [isStepEv]

/-- Claim C10: whatever the terminal state, `execute_async_model` writes
back the session snapshot taken at task entry with only `num_sent` advanced
by the number of `step` events emitted in this run; every other session key
keeps its entry-snapshot value, so any concurrent external write (such as
the rewind view's reset of `num_sent`) is overwritten at task exit. -/
theorem claim_C10 (cfg : ModelCfg) :
    (execute_async_model cfg).stored.other = cfg.entrySession.other ∧
    (execute_async_model cfg).stored.num_sent
      = cfg.entrySession.num_sent
        + ((execute_async_model cfg).events.countP isStepEv) := by
  cases hs : cfg.startGateSet with
  | true =>
    obtain ⟨ho, hn⟩ := runLoop_stored_frame cfg cfg.totalSteps 0 (by omega)
      false false cfg.entrySession
    have hexec : execute_async_model cfg
        = { runLoop cfg 0 false false cfg.entrySession with
            events := SockEvent.prepared ::
              (runLoop cfg 0 false false cfg.entrySession).events } := by
      unfold execute_async_model
      rw [hs, if_pos rfl]
    rw [hexec]
    refine ⟨ho, ?_⟩
    simp only [List.countP_cons, isStepEv]
    simpa using hn
  | false =>
    obtain ⟨ho, hn⟩ := runLoop_stored_frame cfg cfg.totalSteps 0 (by omega)
      false onModelKill cfg.entrySession
    have hexec : execute_async_model cfg
        = { events := SockEvent.prepared ::
              SockEvent.timeout "Model not started, timed out after 16 sec" ::
              (runLoop cfg 0 false onModelKill cfg.entrySession).events,
            exit := (runLoop cfg 0 false onModelKill cfg.entrySession).exit,
            stored := (runLoop cfg 0 false onModelKill cfg.entrySession).stored,
            stepsTaken := (runLoop cfg 0 false onModelKill cfg.entrySession).stepsTaken,
            killRequests :=
              1 + (runLoop cfg 0 false onModelKill cfg.entrySession).killRequests } := by
      unfold execute_async_model
      rw [hs, if_neg Bool.false_ne_true]
    rw [hexec]
    refine ⟨ho, ?_⟩
    simp only [List.countP_cons, isStepEv]
    simpa using hn
